import Mathlib

/-!
# Verification of flvjoin against its specification

Shallow embedding of the flvjoin FLV-concatenation utility
(`flvjoin.c`, `data_conv.c`, `metadata.c`).  Every definition below is
translated directly from the C sources; machine integers are modelled as
`Nat`/`Int` with explicit reductions modulo `2^32` where the C code relies
on `unsigned int` wraparound.  The host is taken to be little-endian, so
the byte-reordering branches of `data_conv.c` are the ones embedded; the
big-endian branches compute the same byte-level functions.
-/

namespace Flvjoin

/-- The modulus `2^32` of the C `unsigned int` type. -/
def pow32 : Nat := 4294967296

/-- Reduce an integer into `unsigned int` range, as C assignment to an
`unsigned int` does (reduction modulo `2^32`). -/
def wrap32 (i : Int) : Nat := (i % (pow32 : Int)).toNat

/-! ## Binary primitive codec (`data_conv.c`)

Byte buffers are `List Nat` with each entry a byte value `< 256`.  The
functions below are the observable byte-level behaviour of the
little-endian branches of `data_conv.c`; doubles are modelled by their
64-bit wire pattern, since `conv_double`/`format_double` only reorder
bytes and never interpret the value arithmetically. -/

/-- Byte `i` (0 = least significant) of a natural number. -/
def byteOf (n i : Nat) : Nat := n / 256 ^ i % 256

/-- Model of `format_ui16` from `data_conv.c`: big-endian wire bytes of a 16-bit value. -/
def format_ui16 (n : Nat) : List Nat := [byteOf n 1, byteOf n 0]

/-- Model of `conv_ui16` from `data_conv.c`: decode 2 big-endian wire bytes. -/
def conv_ui16 (b : List Nat) : Nat :=
  b.headD 0 * 256 + (b.drop 1).headD 0

/-- Model of `format_ui32` from `data_conv.c`: big-endian wire bytes of a 32-bit value. -/
def format_ui32 (n : Nat) : List Nat := [byteOf n 3, byteOf n 2, byteOf n 1, byteOf n 0]

/-- Model of `conv_ui32` from `data_conv.c`: decode 4 big-endian wire bytes. -/
def conv_ui32 (b : List Nat) : Nat :=
  b.headD 0 * 16777216 + (b.drop 1).headD 0 * 65536 +
    (b.drop 2).headD 0 * 256 + (b.drop 3).headD 0

/-- Model of `format_ui24` from `data_conv.c`: the 3 low bytes of `n` in big-endian
order, followed by the high byte in the fourth position (used as the FLV
timestamp extension byte). -/
def format_ui24 (n : Nat) : List Nat := [byteOf n 2, byteOf n 1, byteOf n 0, byteOf n 3]

/-- Model of `conv_ui24` from `data_conv.c`: decode 3 big-endian wire bytes, with
`highbyte` contributing bits 24–31. -/
def conv_ui24 (b : List Nat) (highbyte : Nat) : Nat :=
  highbyte * 16777216 + b.headD 0 * 65536 + (b.drop 1).headD 0 * 256 + (b.drop 2).headD 0

/-- Model of `format_double` from `data_conv.c`, at the level of the 64-bit wire
pattern: the 8 bytes of the IEEE-754 image, most significant first (the
function only reverses the little-endian memory image). -/
def format_double_bits (n : Nat) : List Nat :=
  [byteOf n 7, byteOf n 6, byteOf n 5, byteOf n 4,
   byteOf n 3, byteOf n 2, byteOf n 1, byteOf n 0]

/-- Model of `conv_double` from `data_conv.c`, at bit-pattern level: reassemble the
64-bit image from 8 big-endian wire bytes. -/
def conv_double_bits (b : List Nat) : Nat :=
  conv_ui32 (b.take 4) * pow32 + conv_ui32 (b.drop 4)

/-! ## Script-data payload bytes

Payloads of FLV packets are modelled over the alphabet `SByte`: either an
ordinary byte, or one of the 8 wire slots of an IEEE-754 double carrying
its numeric value as a rational.  `conv_double`/`format_double` in the C
source only move the 8 bytes of a double around without interpreting
them, so a double on the wire is faithfully represented by its value
occupying 8 slots. -/

inductive SByte where
  | raw (n : Nat)
  | dbl (q : Rat) (i : Nat)
deriving DecidableEq

/-- Numeric value of a payload byte when the C code reads it as an
integer (a double's wire bytes have no meaningful integer reading; the
model assigns 0, and no theorem below evaluates that case). -/
def sbVal : SByte → Nat
  | .raw n => n % 256
  | .dbl _ _ => 0

/-- Byte read `d[i]` as an integer.  Reads beyond the end of the region
model the C code's unchecked reads of indeterminate memory; the model
fixes them to 0, and the theorems below only exercise in-bounds inputs. -/
def sAt (d : List SByte) (i : Nat) : Nat := sbVal (d.getD i (.raw 0))

/-- Model of `conv_ui16` applied at position `i` of a script payload. -/
def sconv_ui16 (d : List SByte) (i : Nat) : Nat := sAt d i * 256 + sAt d (i + 1)

/-- Model of `conv_ui32` applied at position `i` of a script payload. -/
def sconv_ui32 (d : List SByte) (i : Nat) : Nat :=
  sAt d i * 16777216 + sAt d (i + 1) * 65536 + sAt d (i + 2) * 256 + sAt d (i + 3)

/-- Model of `conv_double` applied at position `i` of a script payload: the value
of the double whose wire image starts there. -/
def sconv_double (d : List SByte) (i : Nat) : Rat :=
  match d.getD i (.raw 0) with
  | .dbl q _ => q
  | .raw _ => 0

/-- The bytes of an ASCII string constant, as the C code compares them. -/
def strBytes (s : String) : List Nat := s.data.map Char.toNat

/-- The name copied out by `parse_script_string` in `metadata.c`:
`string_length` bytes starting at `pos`. -/
def strAt (d : List SByte) (pos len : Nat) : List Nat :=
  (List.range len).map (fun j => sAt d (pos + j))

/-! ## Metadata record (`metadata.c`, `struct FLVmetadata`) -/

/-- Model of `struct FLVmetadata` from `metadata.c`: scalar metadata fields plus
the output byte offset of each placeholder. -/
structure FLVmetadata where
  duration : Rat := 0
  width : Rat := 0
  height : Rat := 0
  framerate : Rat := 0
  videocodecid : Rat := 0
  audiosamplerate : Rat := 0
  audiosamplesize : Rat := 0
  stereo : Int := 0
  audiocodecid : Rat := 0
  filesize : Rat := 0
  ofs_duration : Nat := 0
  ofs_width : Nat := 0
  ofs_height : Nat := 0
  ofs_framerate : Nat := 0
  ofs_videocodecid : Nat := 0
  ofs_audiosamplerate : Nat := 0
  ofs_audiosamplesize : Nat := 0
  ofs_stereo : Nat := 0
  ofs_audiocodecid : Nat := 0
  ofs_filesize : Nat := 0
deriving DecidableEq

/-- Truncation toward zero, as the C cast `(char)value` applied to a
double rounds. -/
def ratTrunc (q : Rat) : Int := if 0 ≤ q then ⌊q⌋ else ⌈q⌉

/-- Model of `add_meta_item` from `metadata.c`: store a name/value pair in the
metadata record if the name is one of the recognised fields; the value
−1 (the parser's no-numeric-value sentinel) is ignored. -/
def add_meta_item (name : List Nat) (value : Rat) (m : FLVmetadata) : FLVmetadata :=
  if value = -1 then m
  else if name = strBytes "width" then { m with width := value }
  else if name = strBytes "height" then { m with height := value }
  else if name = strBytes "framerate" then { m with framerate := value }
  else if name = strBytes "videocodecid" then { m with videocodecid := value }
  else if name = strBytes "audiosamplerate" then { m with audiosamplerate := value }
  else if name = strBytes "audiosamplesize" then { m with audiosamplesize := value }
  else if name = strBytes "stereo" then { m with stereo := ratTrunc value }
  else if name = strBytes "audiocodecid" then { m with audiocodecid := value }
  else m

/-- Fold a trace of `add_meta_item` calls, in call order, over a record. -/
def applyPairs (m : FLVmetadata) (ps : List (List Nat × Rat)) : FLVmetadata :=
  ps.foldl (fun m p => add_meta_item p.1 p.2 m) m

/-! ## Recursive script-data decoder (`metadata.c`)

`parse_number`, `parse_script_object` and the name/value loop of the
ECMA-array case, with a structurally decreasing fuel argument standing
for the C call stack (the theorems below always supply ample fuel, and
out-of-fuel returns mirror the sentinel result).  Each function returns
the updated cursor together with the trace of `add_meta_item` calls it
performed, in call order. -/

/-- The ECMA-array length as the C `int array_length` reads it: the
32-bit value reinterpreted as a signed int, with negative lengths
running the loop zero times. -/
def arrayIters (len32 : Nat) : Nat := if len32 < 2147483648 then len32 else 0

mutual

/-- Model of `parse_number` from `metadata.c`: decode one tagged script value at
cursor `pos`, returning (value, new cursor, trace of stored pairs).  An
unrecognised tag byte only emits a diagnostic in C; here it leaves the
sentinel value −1 and advances past the tag byte alone. -/
def parse_number (fuel : Nat) (d : List SByte) (pos : Nat) :
    Rat × Nat × List (List Nat × Rat) :=
  match fuel with
  | 0 => (-1, pos, [])
  | fuel + 1 =>
    let t := sAt d pos
    let pos := pos + 1
    if t = 0 then (sconv_double d pos, pos + 8, [])
    else if t = 1 then ((sAt d pos : Rat), pos + 1, [])
    else if t = 2 then (-1, pos + 2 + sconv_ui16 d pos, [])
    else if t = 3 then
      let r := parse_script_object fuel d pos
      (-1, r)
    else if t = 7 then ((sconv_ui16 d pos : Rat), pos + 2, [])
    else if t = 8 then
      let r := parse_pairs fuel d (pos + 4) (arrayIters (sconv_ui32 d pos))
      (-1, r)
    else if t = 10 then
      parse_elems fuel d (pos + 4) (arrayIters (sconv_ui32 d pos)) (-1)
    else if t = 11 then (sconv_double d pos / 1000, pos + 8 + 2, [])
    else if t = 12 then (-1, pos + 2 + sconv_ui32 d pos, [])
    else (-1, pos, [])
termination_by structural fuel

/-- Model of `parse_script_object` from `metadata.c`: optional object marker, a
name, a value stored via `add_meta_item`, then the 3-byte terminator
0 0 9 is skipped only when present (no diagnostic in this source file). -/
def parse_script_object (fuel : Nat) (d : List SByte) (pos : Nat) :
    Nat × List (List Nat × Rat) :=
  match fuel with
  | 0 => (pos, [])
  | fuel + 1 =>
    let marker := sAt d pos
    let pos := if marker = 2 then pos + 1 else pos
    let len := sconv_ui16 d pos
    let name := strAt d (pos + 2) len
    let r := parse_number fuel d (pos + 2 + len)
    let pos2 := r.2.1
    let pos3 :=
      if sAt d pos2 = 0 ∧ sAt d (pos2 + 1) = 0 ∧ sAt d (pos2 + 2) = 9
      then pos2 + 3 else pos2
    (pos3, r.2.2 ++ [(name, r.1)])
termination_by structural fuel

/-- The name/value loop of the ECMA-array case of `parse_number`. -/
def parse_pairs (fuel : Nat) (d : List SByte) (pos count : Nat) :
    Nat × List (List Nat × Rat) :=
  match fuel, count with
  | 0, _ => (pos, [])
  | _, 0 => (pos, [])
  | fuel + 1, count + 1 =>
    let len := sconv_ui16 d pos
    let name := strAt d (pos + 2) len
    let r := parse_number fuel d (pos + 2 + len)
    let rest := parse_pairs fuel d r.2.1 count
    (rest.1, r.2.2 ++ [(name, r.1)] ++ rest.2)
termination_by structural fuel

/-- The bare-value loop of the strict-array case of `parse_number`. -/
def parse_elems (fuel : Nat) (d : List SByte) (pos count : Nat) (v : Rat) :
    Rat × Nat × List (List Nat × Rat) :=
  match fuel, count with
  | 0, _ => (v, pos, [])
  | _, 0 => (v, pos, [])
  | fuel + 1, count + 1 =>
    let r := parse_number fuel d pos
    let rest := parse_elems fuel d r.2.1 count r.1
    (rest.1, rest.2.1, r.2.2 ++ rest.2.2)
termination_by structural fuel

end

/-- The loop bound of `extract_metadata`: `packet->datasize - 6` computed
in C `unsigned int` arithmetic and then compared as a (nonnegative) long. -/
def extractBound (datasize : Nat) : Int := ((datasize + pow32 - 6) % pow32 : Nat)

/-- The scan loop of `extract_metadata` from `metadata.c`: repeatedly
read a name and a value while the cursor is within the (non-watertight)
bound, recording whether any name equals "onMetaData". -/
def extract_loop (d : List SByte) (datasize pfuel : Nat) :
    Nat → Nat → Bool → List (List Nat × Rat) → Bool × List (List Nat × Rat)
  | 0, _, found, acc => (found, acc)
  | fuel + 1, pos, found, acc =>
    if (pos : Int) ≤ extractBound datasize then
      let len := sconv_ui16 d pos
      let name := strAt d (pos + 2) len
      let r := parse_number pfuel d (pos + 2 + len)
      extract_loop d datasize pfuel fuel r.2.1
        (found || decide (name = strBytes "onMetaData")) (acc ++ r.2.2 ++ [(name, r.1)])
    else (found, acc)

/-! ## Packets and the join engine (`flvjoin.c`) -/

/-- Model of `struct FLVpacket` from `flvjoin.h`. -/
structure FLVpacket where
  type : Nat
  datasize : Nat
  timestamp : Nat
  streamid : Nat
  data : List SByte
  backptr : Nat
deriving DecidableEq

/-- Model of `extract_metadata` from `metadata.c`: skip the optional leading
object marker and scan name/value pairs; returns the "onMetaData seen"
flag and the trace of stored pairs.  The fuel bounds both loop trips and
recursion depth and is ample for every input used below. -/
def extract_metadata (fuel : Nat) (p : FLVpacket) : Bool × List (List Nat × Rat) :=
  if p.type ≠ 18 then (false, [])
  else
    let pos0 := if sAt p.data 0 = 2 then 1 else 0
    extract_loop p.data p.datasize fuel fuel pos0 false []

/-- Configuration consumed by the join engine: the `-n` flag and the
frame interval in milliseconds. -/
structure Config where
  no_meta : Bool
  frame_interval : Nat
deriving DecidableEq

/-- The process-lifetime mutable state of `flvjoin.c`: the `static`
variables of the translation units plus the output stream.  `pending`
is the `static` packet array of `buffer_packet` (shared across files);
`output` is the sequence of packets written by `write_packet`, already
carrying their rewritten timestamps. -/
structure JoinState where
  first_time : Bool
  metadata_extracted : Bool
  seq_header : Option FLVpacket
  last_video_timestamp : Nat
  last_audio_timestamp : Int
  last_packet_size : Nat
  pending : List FLVpacket
  meta : FLVmetadata
  output : List FLVpacket
deriving DecidableEq

/-- The initial values of the `static` variables of `flvjoin.c`. -/
def initJoinState : JoinState :=
  { first_time := true
    metadata_extracted := false
    seq_header := none
    last_video_timestamp := 0
    last_audio_timestamp := -1
    last_packet_size := 0
    pending := []
    meta := {}
    output := [] }

/-- Model of `write_packet` from `flvjoin.c`: add the file-start offset to the
timestamp (in `unsigned int` arithmetic), drop overlapping audio, and
otherwise emit the packet and update the continuity counters. -/
def write_packet (s : JoinState) (p : FLVpacket) (file_start_timestamp : Int) : JoinState :=
  let ts := wrap32 ((p.timestamp : Int) + file_start_timestamp)
  if p.type = 8 ∧ (ts : Int) ≤ s.last_audio_timestamp then s
  else
    { s with
      output := s.output ++ [{ p with timestamp := ts }]
      last_video_timestamp := if p.type = 9 then ts else s.last_video_timestamp
      last_audio_timestamp := if p.type = 8 then ts else s.last_audio_timestamp
      last_packet_size := p.datasize }

/-- One iteration of the flush loop of `buffer_packet`: if a sequence
header is cached and the buffered packet is video, write the header
first (with its timestamp set to the video packet's source timestamp)
and clear the cache; then write the buffered packet. -/
def flushOne (file_start_timestamp : Int) (s : JoinState) (q : FLVpacket) : JoinState :=
  let s :=
    match s.seq_header with
    | some sh =>
      if q.type = 9 then
        { write_packet s { sh with timestamp := q.timestamp } file_start_timestamp with
          seq_header := none }
      else s
    | none => s
  write_packet s q file_start_timestamp

/-- Model of `buffer_packet` from `flvjoin.c`: append the packet to the pending
array; when `flush` is set, write out the whole array in arrival order
and reset its count to 0. -/
def buffer_packet (s : JoinState) (p : FLVpacket) (file_start_timestamp : Int)
    (flush : Bool) : JoinState :=
  let pend := s.pending ++ [p]
  if flush then
    let s2 := pend.foldl (flushOne file_start_timestamp) s
    { s2 with pending := [] }
  else { s with pending := pend }

/-- Per-file local state of `append_file`: the start-offset sentinel,
the first-keyframe sentinel, the snapshot of the previous file's last
video timestamp taken on entry, and the trim marks. -/
structure FileState where
  file_start_timestamp : Int
  first_keyframe_timestamp : Int
  lastfile_video_timestamp : Nat
  mark_in : Nat
  mark_out : Nat
deriving DecidableEq

/-- First payload byte, as `packet.data[0]` reads it. -/
def head0 (p : FLVpacket) : Nat := sAt p.data 0

/-- Second payload byte, as `packet.data[1]` reads it. -/
def head1 (p : FLVpacket) : Nat := sAt p.data 1

/-- The body of the per-packet loop of `append_file` in `flvjoin.c`,
after the tag has been demuxed: script handling, sequence-header
capture, mark trimming, keyframe classification, and the
SeekingStart/Streaming state machine. -/
def processPacket (cfg : Config) (st : FileState × JoinState) (p : FLVpacket) :
    FileState × JoinState :=
  let fs := st.1
  let s := st.2
  if p.type = 18 then
    if ¬s.metadata_extracted ∧ ¬cfg.no_meta then
      let r := extract_metadata (p.datasize + 1) p
      (fs, { s with metadata_extracted := r.1, meta := applyPairs s.meta r.2 })
    else (fs, s)
  else if s.seq_header = none ∧ p.type = 9 ∧ head0 p % 16 = 7 ∧ head1 p = 0 then
    (fs, { s with seq_header := some p })
  else if p.timestamp < fs.mark_in ∨ p.timestamp ≥ fs.mark_out ∨
      (p.type ≠ 8 ∧ p.type ≠ 9) then
    (fs, s)
  else
    let key_frame := p.type = 8 ∨ head0 p / 16 = 1
    let fs :=
      if fs.first_keyframe_timestamp = -1 ∧ key_frame then
        { fs with first_keyframe_timestamp := (p.timestamp : Int) }
      else fs
    if fs.file_start_timestamp = -999999 then
      if p.type = 9 then
        if key_frame then
          let fst' :=
            if s.first_time then -fs.first_keyframe_timestamp
            else (fs.lastfile_video_timestamp : Int) + (cfg.frame_interval : Int)
                   - (p.timestamp : Int)
          let s := if s.first_time then { s with first_time := false } else s
          ({ fs with file_start_timestamp := fst' }, buffer_packet s p fst' true)
        else (fs, s)
      else (fs, buffer_packet s p (-1) false)
    else (fs, write_packet s p fs.file_start_timestamp)

/-- The per-file state `append_file` sets up on entry. -/
def initFileState (s : JoinState) (mark_in mark_out : Nat) : FileState :=
  { file_start_timestamp := -999999
    first_keyframe_timestamp := -1
    lastfile_video_timestamp := s.last_video_timestamp
    mark_in := mark_in
    mark_out := mark_out }

/-- Model of `append_file` from `flvjoin.c` at packet level: process the file's
demuxed packets in order, also returning the final per-file state. -/
def appendFilePackets (cfg : Config) (s : JoinState) (mark_in mark_out : Nat)
    (ps : List FLVpacket) : FileState × JoinState :=
  ps.foldl (processPacket cfg) (initFileState s mark_in mark_out, s)

/-- One input line: a file's trim marks (already in milliseconds) and
its demuxed packets. -/
structure InputFile where
  mark_in : Nat
  mark_out : Nat
  packets : List FLVpacket
deriving DecidableEq

/-- The main loop of `flvjoin.c`: append each input file in turn,
starting from the initial static state. -/
def runJoin (cfg : Config) (files : List InputFile) : JoinState :=
  files.foldl (fun s f => (appendFilePackets cfg s f.mark_in f.mark_out f.packets).2)
    initJoinState

/-! ## Metadata packet generation and patching (`metadata.c`) -/

/-- Model of `put_string` from `metadata.c`: u16 length prefix then the raw bytes. -/
def putStringS (s : String) : List SByte :=
  (format_ui16 s.length).map SByte.raw ++ (strBytes s).map SByte.raw

/-- The 8 wire slots of a double with value `q`. -/
def dblSlots (q : Rat) : List SByte := (List.range 8).map (SByte.dbl q)

/-- Model of `put_double` from `metadata.c`: marker byte 0 then the double image. -/
def putDoubleS (q : Rat) : List SByte := SByte.raw 0 :: dblSlots q

/-- Model of `put_boolean` from `metadata.c`: marker byte 1 then the value byte. -/
def putBooleanS (v : Nat) : List SByte := [SByte.raw 1, SByte.raw (v % 256)]

/-- The fixed 13-byte output file header written by `write_flv_header`. -/
def flvHeaderBytes : List SByte :=
  ([70, 76, 86, 1, 5, 0, 0, 0, 9, 0, 0, 0, 0] : List Nat).map SByte.raw

/-- Model of `generate_metadata_packet` from `metadata.c`: build the placeholder
onMetaData document and record, in the metadata record, the output byte
offset of each patchable value.  `currpos` is `ftell(fd) + 11` at the
time of the call. -/
def generate_metadata (currpos : Nat) (m : FLVmetadata) : List SByte × FLVmetadata :=
  let d := [SByte.raw 2] ++ putStringS "onMetaData" ++ [SByte.raw 8] ++
    (format_ui32 11).map SByte.raw
  let d := d ++ putStringS "duration"
  let o_duration := currpos + d.length
  let d := d ++ putDoubleS 0
  let d := d ++ putStringS "width"
  let o_width := currpos + d.length
  let d := d ++ putDoubleS 0
  let d := d ++ putStringS "height"
  let o_height := currpos + d.length
  let d := d ++ putDoubleS 0
  let d := d ++ putStringS "framerate"
  let o_framerate := currpos + d.length
  let d := d ++ putDoubleS 0
  let d := d ++ putStringS "videocodecid"
  let o_videocodecid := currpos + d.length
  let d := d ++ putDoubleS 0
  let d := d ++ putStringS "audiosamplerate"
  let o_audiosamplerate := currpos + d.length
  let d := d ++ putDoubleS 0
  let d := d ++ putStringS "audiosamplesize"
  let o_audiosamplesize := currpos + d.length
  let d := d ++ putDoubleS 0
  let d := d ++ putStringS "stereo"
  let o_stereo := currpos + d.length
  let d := d ++ putBooleanS 0
  let d := d ++ putStringS "audiocodecid"
  let o_audiocodecid := currpos + d.length
  let d := d ++ putDoubleS 0
  let d := d ++ putStringS "filesize"
  let o_filesize := currpos + d.length
  let d := d ++ putDoubleS 0
  let d := d ++ putStringS "metadatacreator" ++ [SByte.raw 2] ++ putStringS "flvjoin v0.92" ++
    ([0, 0, 9] : List Nat).map SByte.raw
  (d, { m with
        ofs_duration := o_duration
        ofs_width := o_width
        ofs_height := o_height
        ofs_framerate := o_framerate
        ofs_videocodecid := o_videocodecid
        ofs_audiosamplerate := o_audiosamplerate
        ofs_audiosamplesize := o_audiosamplesize
        ofs_stereo := o_stereo
        ofs_audiocodecid := o_audiocodecid
        ofs_filesize := o_filesize })

/-- The tag wire image of a packet whose timestamp has already been
rewritten, exactly as `write_packet` emits it: type byte, 3-byte size,
3-byte timestamp plus extension byte, 3-byte stream id, payload, 4-byte
backpointer. -/
def tagBytes (p : FLVpacket) : List SByte :=
  [SByte.raw p.type] ++ ((format_ui24 p.datasize).take 3).map SByte.raw ++
    (format_ui24 p.timestamp).map SByte.raw ++
    ((format_ui24 p.streamid).take 3).map SByte.raw ++
    p.data ++ (format_ui32 p.backptr).map SByte.raw

/-- The output prefix main writes before any input file is read: the
13-byte FLV header followed by the placeholder metadata tag generated at
`ftell = 13` (so `currpos = 24`), paired with the metadata record now
holding the placeholder offsets. -/
def mainOutputStart : List SByte × FLVmetadata :=
  let g := generate_metadata 24 {}
  (flvHeaderBytes ++
     tagBytes { type := 18, datasize := g.1.length, timestamp := 0, streamid := 0,
                data := g.1, backptr := g.1.length + 11 },
   g.2)

/-- In-place overwrite of `bs.length` bytes of `out` starting at byte
offset `ofs` (an `fseek` to `ofs` followed by a write of `bs`). -/
def patchAt (out : List SByte) (ofs : Nat) (bs : List SByte) : List SByte :=
  out.take ofs ++ bs ++ out.drop (ofs + bs.length)

/-- The `n` bytes of `out` starting at offset `ofs`. -/
def slice (out : List SByte) (ofs n : Nat) : List SByte := (out.drop ofs).take n

/-- Model of `write_metadata` from `metadata.c`: set `duration` (seconds) and
`filesize` (current output length) in the record, then overwrite every
placeholder in place at its recorded offset. -/
def write_metadata (out : List SByte) (m : FLVmetadata) (timestamp : Nat) :
    List SByte × FLVmetadata :=
  let m := { m with duration := (timestamp : Rat) / 1000, filesize := (out.length : Rat) }
  let out := patchAt out m.ofs_duration (putDoubleS m.duration)
  let out := patchAt out m.ofs_width (putDoubleS m.width)
  let out := patchAt out m.ofs_height (putDoubleS m.height)
  let out := patchAt out m.ofs_framerate (putDoubleS m.framerate)
  let out := patchAt out m.ofs_videocodecid (putDoubleS m.videocodecid)
  let out := patchAt out m.ofs_audiosamplerate (putDoubleS m.audiosamplerate)
  let out := patchAt out m.ofs_audiosamplesize (putDoubleS m.audiosamplesize)
  let out := patchAt out m.ofs_stereo (putBooleanS (m.stereo % 256).toNat)
  let out := patchAt out m.ofs_audiocodecid (putDoubleS m.audiocodecid)
  let out := patchAt out m.ofs_filesize (putDoubleS m.filesize)
  (out, m)

/-- The trailing-audio-frame duration estimate of `main`:
`(unsigned int)(0.5 + 1000.0 * last_packet_size * 8 / audio_bitrate)`,
i.e. the round-half-up of `8000 * size / bitrate`, computed here in
exact rational arithmetic. -/
def audioTailMs (size bitrate : Nat) : Nat := (16000 * size + bitrate) / (2 * bitrate)

/-- The duration (milliseconds) `main` computes before calling
`write_metadata`, with the C `unsigned int` reduction made explicit. -/
def finalDurationMs (last_video : Nat) (last_audio : Int) (last_size : Nat)
    (audio_bitrate frame_interval : Nat) : Nat :=
  if last_audio ≤ (last_video : Int) then wrap32 ((last_video : Int) + frame_interval)
  else wrap32 (last_audio + (audioTailMs last_size audio_bitrate % pow32 : Nat))

/-! ## Byte-level tag demuxing (`append_file` read loop)

The read loop of `append_file` at the level of the input byte stream,
including the `static` header buffer `buff` and payload buffer whose
contents persist between reads (a short read leaves stale bytes in
place).  Memory never yet written (fresh `malloc`/`realloc` regions) is
modelled as zero bytes; no theorem below depends on those bytes. -/

/-- One parsed tag, before the join engine sees it. -/
structure RawPacket where
  type : Nat
  datasize : Nat
  timestamp : Nat
  streamid : Nat
  data : List Nat
  backptr : Nat
deriving DecidableEq

/-- The demuxer's mutable state: read position, the static header
buffer, the static payload buffer, and the stream's end-of-file flag. -/
structure DemuxSt where
  pos : Nat
  buff : List Nat
  pbuf : List Nat
  eof : Bool
deriving DecidableEq

/-- Model of `fread` of `k` bytes into `buf` at byte offset `ofs`: returns the
updated buffer, the count actually read, the new file position, and
whether end of file was hit (the count fell short of the request). -/
def freadInto (file : List Nat) (pos : Nat) (buf : List Nat) (ofs k : Nat) :
    List Nat × Nat × Nat × Bool :=
  let bytes := (file.drop pos).take k
  (buf.take ofs ++ bytes ++ buf.drop (ofs + bytes.length), bytes.length,
   pos + bytes.length, decide (bytes.length < k))

/-- One iteration of the tag loop of `append_file`: the 11-byte header
read (`none` signals the zero-length read that stops the file; the
header is parsed from the buffer regardless of how many bytes the read
actually delivered), then the payload read and the 4-byte backpointer
read. -/
def readTag (file : List Nat) (st : DemuxSt) : Option RawPacket × DemuxSt :=
  let r := freadInto file st.pos st.buff 0 11
  let buff := r.1
  let size := r.2.1
  let pos := r.2.2.1
  let eof := st.eof || r.2.2.2
  if size = 0 then (none, { st with buff := buff, pos := pos, eof := eof })
  else
    let dsize := conv_ui24 (buff.drop 1) 0
    let pbuf0 :=
      if st.pbuf.length < dsize then st.pbuf ++ List.replicate (dsize - st.pbuf.length) 0
      else st.pbuf
    let rp := freadInto file pos pbuf0 0 dsize
    let rb := freadInto file rp.2.2.1 buff 0 4
    (some { type := buff.headD 0
            datasize := dsize
            timestamp := conv_ui24 (buff.drop 4) (buff.getD 7 0)
            streamid := conv_ui24 (buff.drop 8) 0
            data := rp.1.take dsize
            backptr := conv_ui32 rb.1 },
     { pos := rb.2.2.1, buff := rb.1, pbuf := rp.1, eof := eof || rp.2.2.2 || rb.2.2.2 })

/-- The `while(!feof(infile))` tag loop of `append_file`. -/
def demuxLoop (file : List Nat) : Nat → DemuxSt → List RawPacket → List RawPacket × DemuxSt
  | 0, st, acc => (acc, st)
  | fuel + 1, st, acc =>
    if st.eof then (acc, st)
    else
      match readTag file st with
      | (none, st') => (acc, st')
      | (some packet, st') => demuxLoop file fuel st' (acc ++ [packet])

/-- The FLV signature bytes checked against the start of each input. -/
def flvSignature : List Nat := [70, 76, 86]

/-- The whole read side of `append_file` for one input file: the
initial 9-byte header read (`none` = header read error, file skipped),
the signature check with rewind for headerless files, then the tag
loop.  For files with a header, the extra header bytes plus the first
backpointer are skipped (read into `buff` at offset 9). -/
def demuxFile (file : List Nat) : Option (List RawPacket × DemuxSt) :=
  let r9 := freadInto file 0 (List.replicate 13 0) 0 9
  if r9.2.1 ≠ 9 then none
  else
    let buff := r9.1
    let st : DemuxSt := { pos := r9.2.2.1, buff := buff, pbuf := [], eof := r9.2.2.2 }
    if buff.take 3 = flvSignature then
      let header_length := conv_ui32 (buff.drop 5)
      let buffsize := max 13 (header_length + 4)
      let buff1 := buff ++ List.replicate (buffsize - 13) 0
      let re := freadInto file st.pos buff1 9 (header_length - 9 + 4)
      some (demuxLoop file (file.length + 1)
        { pos := re.2.2.1, buff := re.1, pbuf := [], eof := st.eof || re.2.2.2 } [])
    else
      some (demuxLoop file (file.length + 1) { st with pos := 0 } [])

/-- The timestamps of the audio packets of an output sequence, in
emission order. -/
def audioTimestamps (out : List FLVpacket) : List Nat :=
  (out.filter (fun p => p.type == 8)).map (fun p => p.timestamp)

/-- A sequence of in-place patches applied left to right; `write_metadata`
performs exactly such a sequence. -/
def applyPatches (out : List SByte) (ps : List (Nat × List SByte)) : List SByte :=
  ps.foldl (fun o pr => patchAt o pr.1 pr.2) out

/-- The audio-monotonicity invariant: the audio timestamps already
emitted are strictly increasing, and the last of them (when any) is at
most `last_audio_timestamp`. -/
def AudioInv (s : JoinState) : Prop :=
  List.Chain' (· < ·) (audioTimestamps s.output) ∧
  ∀ a ∈ (audioTimestamps s.output).getLast?, (a : Int) ≤ s.last_audio_timestamp

/-! ## Concrete inputs used in the example runs below -/

/-- An audio tag (all audio packets are key frames). -/
def audioP (ts : Nat) : FLVpacket :=
  { type := 8, datasize := 1, timestamp := ts, streamid := 0, data := [.raw 175], backptr := 16 }

/-- A video key-frame tag: first payload byte 0x17 (frame type 1, codec
7), second byte 1 (an AVC NALU, not a configuration record). -/
def videoKeyP (ts : Nat) : FLVpacket :=
  { type := 9, datasize := 2, timestamp := ts, streamid := 0, data := [.raw 23, .raw 1],
    backptr := 17 }

/-- An AVC configuration record: first payload byte 0x17, second byte 0;
`tag` distinguishes different records. -/
def configP (ts tag : Nat) : FLVpacket :=
  { type := 9, datasize := 3, timestamp := ts, streamid := 0,
    data := [.raw 23, .raw 0, .raw tag], backptr := 18 }

/-- A configuration with metadata suppressed and the default 100 ms
frame interval (10 fps would be `-f 10`). -/
def cfg0 : Config := { no_meta := true, frame_interval := 100 }

/-- A per-file state already in the Streaming state (offset 0). -/
def streamFs : FileState :=
  { file_start_timestamp := 0, first_keyframe_timestamp := -1,
    lastfile_video_timestamp := 0, mark_in := 0, mark_out := 99999000 }

/-- A headerless input byte stream: one complete audio tag (11-byte
header, 1 payload byte, 4-byte backpointer) followed by a 5-byte
truncated tag header. -/
def c8file : List Nat :=
  [8, 0, 0, 1, 0, 0, 0, 0, 0, 0, 0] ++ [175] ++ [0, 0, 0, 16] ++ [9, 0, 0, 0, 7]

/-- A script payload: object marker, the pair "a" ↦ (unrecognised tag
byte 13), then the pair "width" ↦ double 5.0. -/
def c9data : List SByte :=
  [.raw 2,
   .raw 0, .raw 1, .raw 97, .raw 13,
   .raw 0, .raw 5, .raw 119, .raw 105, .raw 100, .raw 116, .raw 104,
   .raw 0] ++ dblSlots 5

/-- The script packet carrying `c9data`. -/
def c9pkt : FLVpacket :=
  { type := 18, datasize := 21, timestamp := 0, streamid := 0, data := c9data, backptr := 36 }

end Flvjoin

namespace Flvjoin

theorem byteOf_lt (n i : Nat) : byteOf n i < 256 :=
  Nat.mod_lt _ (by decide)

theorem conv_format_ui16 (x : Nat) (hx : x < 2 ^ 16) :
    conv_ui16 (format_ui16 x) = x := by
  simp only [conv_ui16, format_ui16, byteOf]
  simp only [List.headD, List.drop]
  omega

theorem conv_format_ui32 (x : Nat) (hx : x < 2 ^ 32) :
    conv_ui32 (format_ui32 x) = x := by
  simp only [conv_ui32, format_ui32, byteOf]
  simp only [List.headD, List.drop]
  omega

theorem conv_format_ui24_ext (x : Nat) (hx : x < 2 ^ 32) :
    conv_ui24 ((format_ui24 x).take 3) (((format_ui24 x).drop 3).headD 0) = x := by
  simp only [conv_ui24, format_ui24, byteOf]
  simp only [List.take, List.headD, List.drop]
  omega

theorem conv_format_ui24_noext (x : Nat) (hx : x < 2 ^ 24) :
    conv_ui24 ((format_ui24 x).take 3) 0 = x := by
  simp only [conv_ui24, format_ui24, byteOf]
  simp only [List.take, List.headD, List.drop]
  omega

theorem conv_format_double_bits (x : Nat) (hx : x < 2 ^ 64) :
    conv_double_bits (format_double_bits x) = x := by
  simp only [conv_double_bits, format_double_bits, conv_ui32, byteOf, pow32]
  simp only [List.take, List.headD, List.drop]
  omega

theorem wrap32_eq (i : Int) (h0 : 0 ≤ i) (h1 : i < (pow32 : Int)) : (wrap32 i : Int) = i := by
  simp only [wrap32, pow32] at *
  omega

/-- C7: for each binary primitive codec pair — 16-bit unsigned, 24-bit
unsigned with and without the extension high byte, 32-bit unsigned, and
the 64-bit double (modelled by its 64-bit wire pattern, which is all the
C code touches) — decoding the encoded wire bytes recovers every
representable value. -/
theorem codec_round_trip :
    (∀ x, x < 2 ^ 16 → conv_ui16 (format_ui16 x) = x) ∧
    (∀ x, x < 2 ^ 24 → conv_ui24 ((format_ui24 x).take 3) 0 = x) ∧
    (∀ x, x < 2 ^ 32 → conv_ui24 ((format_ui24 x).take 3) (((format_ui24 x).drop 3).headD 0) = x) ∧
    (∀ x, x < 2 ^ 32 → conv_ui32 (format_ui32 x) = x) ∧
    (∀ x, x < 2 ^ 64 → conv_double_bits (format_double_bits x) = x) :=
  ⟨conv_format_ui16, conv_format_ui24_noext, conv_format_ui24_ext,
   conv_format_ui32, conv_format_double_bits⟩

/-- Witness for C7 at 0, 1, each maximum, and a value whose wire image
is byte-swapped relative to little-endian host order (0x12345678). -/
theorem codec_round_trip_witness :
    conv_ui16 (format_ui16 0) = 0 ∧
    conv_ui16 (format_ui16 1) = 1 ∧
    conv_ui16 (format_ui16 65535) = 65535 ∧
    conv_ui24 ((format_ui24 16777215).take 3) 0 = 16777215 ∧
    conv_ui24 ((format_ui24 4294967295).take 3)
      (((format_ui24 4294967295).drop 3).headD 0) = 4294967295 ∧
    conv_ui32 (format_ui32 305419896) = 305419896 ∧
    conv_double_bits (format_double_bits 18446744073709551615) = 18446744073709551615 :=
  ⟨codec_round_trip.1 0 (by decide),
   codec_round_trip.1 1 (by decide),
   codec_round_trip.1 65535 (by decide),
   codec_round_trip.2.1 16777215 (by decide),
   codec_round_trip.2.2.1 4294967295 (by decide),
   codec_round_trip.2.2.2.1 305419896 (by decide),
   codec_round_trip.2.2.2.2 18446744073709551615 (by decide)⟩

/-- C1 counterexample: in the very first file of a run, an audio packet
at 5 ms precedes the first video key frame at 10 ms; the code sets
`file_start_timestamp` to −5 (the negated *first key frame of any kind*,
here the audio packet), not −10 as the claim's first branch states. -/
theorem first_file_offset_uses_first_keyframe_cex :
    (appendFilePackets cfg0 initJoinState 0 99999000 [audioP 5, videoKeyP 10]).1.file_start_timestamp
        = -5 ∧
    (-5 : Int) ≠ -(10 : Int) := by decide

/-- C3 counterexample: for a first file holding a configuration record,
an audio packet at 0 ms and a video key frame at 0 ms, the emitted type
sequence is audio (8), configuration record (9), key frame (9) — not the
claimed configuration-record-first order (9, 8, 9). -/
theorem seq_header_flush_order_cex :
    ((runJoin cfg0 [⟨0, 99999000, [configP 0 65, audioP 0, videoKeyP 0]⟩]).output.map
        (fun p => p.type)) = [8, 9, 9] ∧
    ([8, 9, 9] : List Nat) ≠ [9, 8, 9] := by decide

/-- C3 amended: the cached sequence header is written immediately before
the first *video* packet of the flush (the key frame itself, since only
audio is ever held in the buffer ahead of it), and the key frame is
appended to the pending buffer before flushing; hence the scenario's
output is audio at 0, then the configuration record with its timestamp
set to the key frame's 0, then the key frame at 0. -/
theorem seq_header_flush_order :
    (runJoin cfg0 [⟨0, 99999000, [configP 0 65, audioP 0, videoKeyP 0]⟩]).output =
      [audioP 0, configP 0 65, videoKeyP 0] := by decide

/-- C4 counterexample: with a configuration record already cached, a
second configuration record is not captured: it is forwarded to the
output as an ordinary video key frame (both records appear in the
output) and the cache ends empty rather than holding the newer record. -/
theorem seq_header_capture_cex :
    ((runJoin cfg0 [⟨0, 99999000, [configP 0 65, configP 0 66]⟩]).output.map (fun p => p.data)) =
        [[SByte.raw 23, SByte.raw 0, SByte.raw 65], [SByte.raw 23, SByte.raw 0, SByte.raw 66]] ∧
    (runJoin cfg0 [⟨0, 99999000, [configP 0 65, configP 0 66]⟩]).seq_header = none := by decide

/-- C5 counterexample: a first file with only an audio packet at 500 ms
never determines its offset, so its buffered packet survives into the
second file (the pending buffer is not reset per file) and is then
flushed with the second file's offset −200, emitting the audio at
300 ms. -/
theorem pending_buffer_persists_cex :
    (runJoin cfg0 [⟨0, 99999000, [audioP 500]⟩]).pending = [audioP 500] ∧
    ((runJoin cfg0 [⟨0, 99999000, [audioP 500]⟩, ⟨0, 99999000, [videoKeyP 200]⟩]).output.map
        (fun p => (p.type, p.timestamp))) = [(8, 300), (9, 0)] := by decide

/-- C6 counterexample: an AVC configuration record whose source
timestamp 0 lies before the file's mark-in point 1000 still replaces
the cached sequence header, because the capture test precedes the mark
trim in `append_file`. -/
theorem trim_after_capture_cex :
    (processPacket cfg0 (initFileState initJoinState 1000 2000, initJoinState)
        (configP 0 65)).2.seq_header = some (configP 0 65) ∧
    (configP 0 65).timestamp < 1000 := by decide

/-- C8 counterexample: on an input ending in a 5-byte truncated tag
header, the read loop does not abort: it parses the partially
overwritten static buffer as a complete header (yielding a garbage
packet with stale fields) and then ends the file normally at the next
end-of-file check. -/
theorem short_header_read_cex :
    (demuxFile c8file).map (fun r => r.1) =
      some [{ type := 8, datasize := 1, timestamp := 0, streamid := 0, data := [175],
              backptr := 16 },
            { type := 9, datasize := 0, timestamp := 458752, streamid := 0, data := [],
              backptr := 150994944 }] ∧
    (demuxFile c8file).map (fun r => r.2.eof) = some true := by decide

/-- C9 counterexample: after the unrecognised tag byte 13 terminating
the pair named "a", decoding of the packet continues and the following
pair "width" ↦ 5 is still extracted and stored in the metadata record —
the enclosing packet's decode does not abort. -/
theorem unknown_tag_continues_cex :
    (extract_metadata 22 c9pkt).2 = [([97], -1), (strBytes "width", 5)] ∧
    (applyPairs {} (extract_metadata 22 c9pkt).2).width = 5 := by decide

/-- C9 amended: an unrecognised variant tag byte yields the −1 sentinel
for that value, consumes only the tag byte, and decoding of the
enclosing packet continues from the next byte — so later name/value
pairs can still be extracted (as the concrete packet `c9pkt` shows),
rather than the decode of the enclosing packet aborting. -/
theorem unknown_tag_parse_behaviour :
    (∀ fuel d pos, sAt d pos ∉ ([0, 1, 2, 3, 7, 8, 10, 11, 12] : List Nat) →
      parse_number (fuel + 1) d pos = (-1, pos + 1, [])) ∧
    (extract_metadata 22 c9pkt).2 = [([97], -1), (strBytes "width", 5)] := by
  refine ⟨?_, by decide⟩
  intro fuel d pos h
  simp only [List.mem_cons, List.not_mem_nil, or_false, not_or] at h
  obtain ⟨h0, h1, h2, h3, h7, h8, h10, h11, h12⟩ := h
  simp only [parse_number, if_neg h0, if_neg h1, if_neg h2, if_neg h3, if_neg h7,
    if_neg h8, if_neg h10, if_neg h11, if_neg h12]

/-- Witness for the general part of C9's amended statement: the
unrecognised tag byte 13 consumes one byte and yields −1. -/
theorem unknown_tag_parse_behaviour_witness :
    parse_number 5 [SByte.raw 13] 0 = (-1, 1, []) :=
  unknown_tag_parse_behaviour.1 4 [SByte.raw 13] 0 (by decide)

/-- C6 amended: trimming applies to audio/video media packets that were
not captured as a configuration record (script packets and the
configuration-record capture precede the trim); such a packet outside
[markIn, markOut) leaves every part of the program state unchanged:
it is neither buffered nor forwarded and touches no counter or cache. -/
theorem trim_drops_media_packets (cfg : Config) (fs : FileState) (s : JoinState)
    (p : FLVpacket)
    (htype : p.type = 8 ∨ p.type = 9)
    (hnocap : ¬(s.seq_header = none ∧ p.type = 9 ∧ head0 p % 16 = 7 ∧ head1 p = 0))
    (htrim : p.timestamp < fs.mark_in ∨ fs.mark_out ≤ p.timestamp) :
    processPacket cfg (fs, s) p = (fs, s) := by
  have h18 : ¬p.type = 18 := by rcases htype with h | h <;> omega
  have ht : p.timestamp < fs.mark_in ∨ p.timestamp ≥ fs.mark_out ∨
      (p.type ≠ 8 ∧ p.type ≠ 9) := by
    rcases htrim with h | h
    · exact Or.inl h
    · exact Or.inr (Or.inl h)
  simp only [processPacket]
  rw [if_neg h18, if_neg hnocap, if_pos ht]

/-- Witness for C6's amended statement: an audio packet at 5 ms with
mark-in 1000 ms is dropped with no state change. -/
theorem trim_drops_media_packets_witness :
    processPacket cfg0 (initFileState initJoinState 1000 2000, initJoinState) (audioP 5) =
      (initFileState initJoinState 1000 2000, initJoinState) :=
  trim_drops_media_packets cfg0 _ _ _ (Or.inl rfl) (by decide) (Or.inl (by decide))

theorem write_packet_seq_header (s : JoinState) (p : FLVpacket) (fst : Int) :
    (write_packet s p fst).seq_header = s.seq_header := by
  by_cases h : p.type = 8 ∧ ((wrap32 ((p.timestamp : Int) + fst)) : Int) ≤ s.last_audio_timestamp
  · simp [write_packet, h]
  · simp only [write_packet]
    rw [if_neg h]

theorem flushOne_seq_header (fst : Int) (s : JoinState) (q : FLVpacket) :
    (flushOne fst s q).seq_header = s.seq_header ∨ (flushOne fst s q).seq_header = none := by
  unfold flushOne
  rw [write_packet_seq_header]
  cases h : s.seq_header with
  | none => exact Or.inl h
  | some sh =>
    dsimp only
    by_cases hv : q.type = 9
    · rw [if_pos hv]
      exact Or.inr rfl
    · rw [if_neg hv]
      exact Or.inl h

theorem foldl_flushOne_seq_header (fst : Int) (l : List FLVpacket) (s : JoinState) :
    (l.foldl (flushOne fst) s).seq_header = s.seq_header ∨
    (l.foldl (flushOne fst) s).seq_header = none := by
  induction l generalizing s with
  | nil => exact Or.inl rfl
  | cons q l ih =>
    simp only [List.foldl_cons]
    rcases ih (flushOne fst s q) with h2 | h2
    · rcases flushOne_seq_header fst s q with h | h
      · exact Or.inl (h2.trans h)
      · exact Or.inr (h2.trans h)
    · exact Or.inr h2

theorem buffer_packet_seq_some (s : JoinState) (p : FLVpacket) (fst : Int) (sh : FLVpacket)
    (hsh : s.seq_header = some sh) :
    (buffer_packet s p fst true).seq_header = some sh ∨
    (buffer_packet s p fst true).seq_header = none := by
  rcases foldl_flushOne_seq_header fst (s.pending ++ [p]) s with h | h
  · exact Or.inl (h.trans hsh)
  · exact Or.inr h

/-- C4 amended: a video packet shaped like an AVC configuration record
(low nibble 7, second byte 0) is captured — never forwarded, state
otherwise untouched — exactly when no sequence header is currently
cached; while one is cached, a later configuration record is *not*
captured (it falls through to ordinary media handling, as the
counterexample shows it can even be forwarded), and the cache afterwards
holds either the old record still or nothing (it is never replaced by
the newer record). -/
theorem seq_header_capture_iff_empty (cfg : Config) (fs : FileState) (s : JoinState)
    (p : FLVpacket)
    (hshape : p.type = 9 ∧ head0 p % 16 = 7 ∧ head1 p = 0) :
    (s.seq_header = none →
      processPacket cfg (fs, s) p = (fs, { s with seq_header := some p })) ∧
    (∀ sh, s.seq_header = some sh →
      (processPacket cfg (fs, s) p).2.seq_header = some sh ∨
      (processPacket cfg (fs, s) p).2.seq_header = none) := by
  obtain ⟨h9, h7, h0⟩ := hshape
  have h18 : ¬p.type = 18 := by omega
  constructor
  · intro hnone
    simp only [processPacket]
    rw [if_neg h18, if_pos ⟨hnone, h9, h7, h0⟩]
  · intro sh hsh
    have hnocap : ¬(s.seq_header = none ∧ p.type = 9 ∧ head0 p % 16 = 7 ∧ head1 p = 0) := by
      simp [hsh]
    simp only [processPacket]
    rw [if_neg h18, if_neg hnocap]
    repeat' split
    all_goals first
      | exact Or.inl hsh
      | exact absurd h9 (by assumption)
      | exact Or.inl ((write_packet_seq_header s p _).trans hsh)
      | exact buffer_packet_seq_some _ p _ sh hsh

/-- Witness for C4's amended statement: with an empty cache, a
configuration record is captured and nothing else changes. -/
theorem seq_header_capture_iff_empty_witness :
    processPacket cfg0 (initFileState initJoinState 0 99999000, initJoinState) (configP 0 65) =
      (initFileState initJoinState 0 99999000,
       { initJoinState with seq_header := some (configP 0 65) }) :=
  (seq_header_capture_iff_empty cfg0 _ _ _ (by decide)).1 rfl

theorem write_packet_output_concat (s : JoinState) (p : FLVpacket) (fst : Int)
    (h : ¬p.type = 8) :
    (write_packet s p fst).output =
      s.output ++ [{ p with timestamp := wrap32 ((p.timestamp : Int) + fst) }] := by
  simp only [write_packet]
  rw [if_neg (fun hc => h hc.1)]

theorem buffer_packet_flush_getLast (s : JoinState) (p : FLVpacket) (fst : Int)
    (h9 : p.type = 9) :
    (buffer_packet s p fst true).output.getLast? =
      some { p with timestamp := wrap32 ((p.timestamp : Int) + fst) } := by
  have h8 : ¬p.type = 8 := by omega
  show (List.foldl (flushOne fst) s (s.pending ++ [p])).output.getLast? = _
  rw [List.foldl_concat, flushOne]
  cases hs : (List.foldl (flushOne fst) s s.pending).seq_header with
  | none =>
    dsimp only
    rw [write_packet_output_concat _ _ _ h8, List.getLast?_concat]
  | some sh =>
    dsimp only
    rw [if_pos h9, write_packet_output_concat _ _ _ h8, List.getLast?_concat]

/-- C1 amended: while the offset is undetermined, the first video key
frame that passes trimming fixes it.  If no offset has yet been fixed in
the run (the `first_time` flag, true exactly until the first file that
finds a video key frame), the offset is the negation of the timestamp of
the file's first trimmed-in key frame of *any* kind — the first audio
packet's timestamp when audio precedes the video key frame — otherwise
it is `lastVideoTimestamp(previous file) + frameInterval − timestamp`,
so that the key frame (the last packet written by the flush) is emitted
exactly at `lastVideoTimestamp + frameInterval`. -/
theorem file_start_offset_formula (cfg : Config) (fs : FileState) (s : JoinState)
    (p : FLVpacket)
    (hseek : fs.file_start_timestamp = -999999)
    (hvid : p.type = 9)
    (hkey : head0 p / 16 = 1)
    (hin : fs.mark_in ≤ p.timestamp)
    (hout : p.timestamp < fs.mark_out)
    (hnocap : ¬(s.seq_header = none ∧ p.type = 9 ∧ head0 p % 16 = 7 ∧ head1 p = 0)) :
    (processPacket cfg (fs, s) p).1.file_start_timestamp =
      (if s.first_time then
        -(if fs.first_keyframe_timestamp = -1 then (p.timestamp : Int)
          else fs.first_keyframe_timestamp)
      else (fs.lastfile_video_timestamp : Int) + (cfg.frame_interval : Int) -
        (p.timestamp : Int)) ∧
    (processPacket cfg (fs, s) p).2.output.getLast? =
      some { p with timestamp := wrap32 ((p.timestamp : Int) +
        (processPacket cfg (fs, s) p).1.file_start_timestamp) } ∧
    (s.first_time = false → fs.lastfile_video_timestamp + cfg.frame_interval < pow32 →
      wrap32 ((p.timestamp : Int) + (processPacket cfg (fs, s) p).1.file_start_timestamp) =
        fs.lastfile_video_timestamp + cfg.frame_interval) := by
  have h18 : ¬p.type = 18 := by omega
  have ht : ¬(p.timestamp < fs.mark_in ∨ p.timestamp ≥ fs.mark_out ∨
      (p.type ≠ 8 ∧ p.type ≠ 9)) := by
    rintro (h | h | ⟨h1, h2⟩)
    · omega
    · omega
    · exact h2 hvid
  have hkf : p.type = 8 ∨ head0 p / 16 = 1 := Or.inr hkey
  have hfk' : (if fs.first_keyframe_timestamp = -1 ∧ (p.type = 8 ∨ head0 p / 16 = 1) then
        { fs with first_keyframe_timestamp := (p.timestamp : Int) } else fs) =
      { fs with first_keyframe_timestamp :=
          if fs.first_keyframe_timestamp = -1 then (p.timestamp : Int)
          else fs.first_keyframe_timestamp } := by
    by_cases hfk : fs.first_keyframe_timestamp = -1
    · rw [if_pos ⟨hfk, hkf⟩, if_pos hfk]
    · rw [if_neg (fun hc => hfk hc.1), if_neg hfk]
  simp only [processPacket]
  rw [if_neg h18, if_neg hnocap, if_neg ht, hfk']
  rw [if_pos (show ({ fs with first_keyframe_timestamp :=
      if fs.first_keyframe_timestamp = -1 then (p.timestamp : Int)
      else fs.first_keyframe_timestamp } : FileState).file_start_timestamp = -999999 from hseek)]
  rw [if_pos hvid, if_pos hkf]
  refine ⟨rfl, ?_, ?_⟩
  · exact buffer_packet_flush_getLast _ p _ hvid
  · intro hft hbound
    rw [hft]
    simp only [Bool.false_eq_true, if_false]
    simp only [wrap32, pow32] at *
    omega

/-- Witness for C1's amended statement: in a later file (first_time
already false) with `lastVideoTimestamp = 0` and `frameInterval = 100`,
a video key frame at 10 ms fixes the offset 0 + 100 − 10 = 90 and the
key frame is emitted at exactly 100 ms. -/
theorem file_start_offset_formula_witness :
    (processPacket cfg0 (initFileState { initJoinState with first_time := false } 0 99999000,
        { initJoinState with first_time := false }) (videoKeyP 10)).1.file_start_timestamp = 90 ∧
    wrap32 (((videoKeyP 10).timestamp : Int) +
      (processPacket cfg0 (initFileState { initJoinState with first_time := false } 0 99999000,
        { initJoinState with first_time := false }) (videoKeyP 10)).1.file_start_timestamp) =
      0 + 100 := by
  have h := file_start_offset_formula cfg0
    (initFileState { initJoinState with first_time := false } 0 99999000)
    { initJoinState with first_time := false } (videoKeyP 10)
    rfl rfl (by decide) (by decide) (by decide) (by decide)
  refine ⟨h.1.trans (by decide), ?_⟩
  exact h.2.2 rfl (by decide)

theorem write_packet_pending (s : JoinState) (p : FLVpacket) (fst : Int) :
    (write_packet s p fst).pending = s.pending := by
  by_cases h : p.type = 8 ∧ ((wrap32 ((p.timestamp : Int) + fst)) : Int) ≤ s.last_audio_timestamp
  · simp only [write_packet]
    rw [if_pos h]
  · simp only [write_packet]
    rw [if_neg h]

theorem set_first_time_eq (s : JoinState) (h : s.first_time = false) :
    ({ s with first_time := false } : JoinState) = s := by
  cases s
  simp_all

theorem processPacket_streaming (cfg : Config) (fs : FileState) (s : JoinState)
    (p : FLVpacket) (hfs : fs.file_start_timestamp ≠ -999999) :
    (processPacket cfg (fs, s) p).1.file_start_timestamp = fs.file_start_timestamp ∧
    (processPacket cfg (fs, s) p).2.pending = s.pending := by
  simp only [processPacket]
  by_cases h18 : p.type = 18
  · rw [if_pos h18]
    split
    · exact ⟨rfl, rfl⟩
    · exact ⟨rfl, rfl⟩
  · rw [if_neg h18]
    by_cases hcap : s.seq_header = none ∧ p.type = 9 ∧ head0 p % 16 = 7 ∧ head1 p = 0
    · rw [if_pos hcap]
      exact ⟨rfl, rfl⟩
    · rw [if_neg hcap]
      by_cases htr : p.timestamp < fs.mark_in ∨ p.timestamp ≥ fs.mark_out ∨
          (p.type ≠ 8 ∧ p.type ≠ 9)
      · rw [if_pos htr]
        exact ⟨rfl, rfl⟩
      · rw [if_neg htr]
        have hsent : ¬((if fs.first_keyframe_timestamp = -1 ∧ (p.type = 8 ∨ head0 p / 16 = 1)
            then { fs with first_keyframe_timestamp := (p.timestamp : Int) }
            else fs).file_start_timestamp = -999999) := by
          split
          · exact hfs
          · exact hfs
        rw [if_neg hsent]
        refine ⟨?_, write_packet_pending s p _⟩
        split <;> rfl

theorem foldl_processPacket_streaming (cfg : Config) (ps : List FLVpacket) :
    ∀ (fs : FileState) (s : JoinState), fs.file_start_timestamp ≠ -999999 → s.pending = [] →
      (ps.foldl (processPacket cfg) (fs, s)).2.pending = [] ∧
      (ps.foldl (processPacket cfg) (fs, s)).1.file_start_timestamp =
        fs.file_start_timestamp := by
  induction ps with
  | nil => exact fun fs s hfs hp => ⟨hp, rfl⟩
  | cons p ps ih =>
    intro fs s hfs hp
    rw [List.foldl_cons]
    have hstep := processPacket_streaming cfg fs s p hfs
    have h2 := ih (processPacket cfg (fs, s) p).1 (processPacket cfg (fs, s) p).2
      (by rw [hstep.1]; exact hfs) (by rw [hstep.2]; exact hp)
    exact ⟨h2.1, h2.2.trans hstep.1⟩

/-- C5 amended: the Pending Buffer is a single, run-wide static array,
cleared only by a flush.  Each packet step either leaves it untouched,
appends the packet (with nothing written), or — when the offset is fixed
— flushes the buffer plus the key frame in arrival order, all with the
newly computed offset, and clears it.  Once a file is Streaming with an
empty buffer, the buffer stays empty and the offset fixed for the rest
of the file, so nothing committed is flushed twice.  (Not fresh per
file: leftovers of a file whose offset was never fixed survive and are
flushed with a later file's offset, per the counterexample.) -/
theorem pending_buffer_behaviour :
    (∀ (cfg : Config) (fs : FileState) (s : JoinState) (p : FLVpacket),
      (processPacket cfg (fs, s) p).2.pending = s.pending ∨
      ((processPacket cfg (fs, s) p).2.pending = s.pending ++ [p] ∧
        (processPacket cfg (fs, s) p).2.output = s.output) ∨
      ((processPacket cfg (fs, s) p).2.pending = [] ∧
        (processPacket cfg (fs, s) p).2.output =
          ((s.pending ++ [p]).foldl
            (flushOne (processPacket cfg (fs, s) p).1.file_start_timestamp)
            { s with first_time := false }).output)) ∧
    (∀ (cfg : Config) (fs : FileState) (s : JoinState) (ps : List FLVpacket),
      fs.file_start_timestamp ≠ -999999 → s.pending = [] →
      (ps.foldl (processPacket cfg) (fs, s)).2.pending = [] ∧
      (ps.foldl (processPacket cfg) (fs, s)).1.file_start_timestamp =
        fs.file_start_timestamp) := by
  constructor
  · intro cfg fs s p
    simp only [processPacket]
    repeat' split
    all_goals first
      | contradiction
      | exact Or.inl rfl
      | exact Or.inl (write_packet_pending s p _)
      | exact Or.inr (Or.inl ⟨rfl, rfl⟩)
      | exact Or.inr (Or.inr ⟨rfl, rfl⟩)
      | exact Or.inr (Or.inr ⟨rfl, by rw [set_first_time_eq s (by simp_all)]; rfl⟩)
  · exact fun cfg fs s ps hfs hp => foldl_processPacket_streaming cfg ps fs s hfs hp

/-- Witness for C5's amended statement: a streaming file processing one
audio packet keeps the buffer empty and the offset unchanged. -/
theorem pending_buffer_behaviour_witness :
    ([audioP 5].foldl (processPacket cfg0) (streamFs, initJoinState)).2.pending = [] ∧
    ([audioP 5].foldl (processPacket cfg0) (streamFs, initJoinState)).1.file_start_timestamp =
      streamFs.file_start_timestamp :=
  pending_buffer_behaviour.2 cfg0 streamFs initJoinState [audioP 5] (by decide) rfl

theorem demuxLoop_eof (file : List Nat) (fuel : Nat) (st : DemuxSt) (acc : List RawPacket)
    (h : st.eof = true) : demuxLoop file fuel st acc = (acc, st) := by
  cases fuel with
  | zero => rfl
  | succ n => simp [demuxLoop, h]

theorem readTag_short (file : List Nat) (st : DemuxSt)
    (heof : st.eof = false)
    (h0 : ¬((file.drop st.pos).take 11).length = 0)
    (h1 : ((file.drop st.pos).take 11).length < 11) :
    (readTag file st).1 ≠ none ∧ (readTag file st).2.eof = true := by
  constructor
  · simp only [readTag, freadInto]
    rw [if_neg h0]
    simp
  · simp only [readTag, freadInto]
    rw [if_neg h0]
    simp only [heof, decide_eq_true h1, Bool.false_or, Bool.true_or]

/-- C8 amended: a zero-length read of the next 11-byte tag header
terminates processing of the file without error (nothing more is
parsed, the loop just stops); a read that returns a non-empty but short
result is NOT fatal and does not abort the run: the header buffer —
partially overwritten, partially stale — is parsed as if complete, one
further (garbage) packet is produced, and the file then ends normally at
the next end-of-file check. -/
theorem short_header_read_behaviour :
    (∀ (file : List Nat) (fuel : Nat) (st : DemuxSt) (acc : List RawPacket),
      st.eof = false → file.length ≤ st.pos →
      demuxLoop file (fuel + 1) st acc = (acc, { st with eof := true })) ∧
    (∀ (file : List Nat) (fuel : Nat) (st : DemuxSt) (acc : List RawPacket),
      st.eof = false → st.pos < file.length → file.length ≤ st.pos + 10 →
      (demuxLoop file (fuel + 2) st acc).1.length = acc.length + 1) := by
  constructor
  · intro file fuel st acc heof hle
    have hdrop : file.drop st.pos = [] := List.drop_eq_nil_of_le hle
    simp [demuxLoop, readTag, freadInto, hdrop, heof]
  · intro file fuel st acc heof hlt hle
    have h0 : ¬((file.drop st.pos).take 11).length = 0 := by
      simp only [List.length_take, List.length_drop]
      omega
    have h1 : ((file.drop st.pos).take 11).length < 11 := by
      simp only [List.length_take, List.length_drop]
      omega
    have hrt := readTag_short file st heof h0 h1
    show (demuxLoop file (fuel + 1 + 1) st acc).1.length = acc.length + 1
    cases hpk : (readTag file st).1 with
    | none => exact absurd hpk hrt.1
    | some pkt =>
      have hsplit : readTag file st = (some pkt, (readTag file st).2) := by
        rw [← hpk]
      rw [demuxLoop.eq_2, if_neg (by rw [heof]; exact Bool.false_ne_true), hsplit]
      show (demuxLoop file (fuel + 1) (readTag file st).2 (acc ++ [pkt])).1.length =
        acc.length + 1
      rw [demuxLoop_eof file (fuel + 1) _ (acc ++ [pkt]) hrt.2]
      simp

/-- Witness for C8's amended statement on a 3-byte file: at its end the
zero-length read stops the loop with only the end-of-file flag set; from
its start, a 3-byte (short, non-empty) header read yields exactly one
parsed packet and a normal stop. -/
theorem short_header_read_behaviour_witness :
    demuxLoop [1, 2, 3] 1 { pos := 3, buff := List.replicate 13 0, pbuf := [], eof := false }
        [] =
      ([], { pos := 3, buff := List.replicate 13 0, pbuf := [], eof := true }) ∧
    (demuxLoop [1, 2, 3] 2 { pos := 0, buff := List.replicate 13 0, pbuf := [], eof := false }
        []).1.length = 0 + 1 :=
  ⟨short_header_read_behaviour.1 [1, 2, 3] 0 _ [] rfl (by decide),
   short_header_read_behaviour.2 [1, 2, 3] 0 _ [] rfl (by decide) (by decide)⟩

theorem length_putDoubleS (q : Rat) : (putDoubleS q).length = 9 := rfl

theorem length_putBooleanS (v : Nat) : (putBooleanS v).length = 2 := rfl

theorem length_patchAt (out bs : List SByte) (ofs : Nat) (h : ofs + bs.length ≤ out.length) :
    (patchAt out ofs bs).length = out.length := by
  simp only [patchAt, List.length_append, List.length_take, List.length_drop]
  omega

theorem slice_patchAt_self (out bs : List SByte) (ofs : Nat)
    (h : ofs + bs.length ≤ out.length) :
    slice (patchAt out ofs bs) ofs bs.length = bs := by
  have hto : (out.take ofs).length = ofs := by
    simp only [List.length_take]
    omega
  simp only [slice, patchAt, List.append_assoc]
  rw [List.drop_left' hto, List.take_left' rfl]

theorem slice_patchAt_before (out bs : List SByte) (o1 o2 n : Nat)
    (h1 : o2 + n ≤ o1) (h2 : o1 + bs.length ≤ out.length) :
    slice (patchAt out o1 bs) o2 n = slice out o2 n := by
  have hto : (out.take o1).length = o1 := by
    simp only [List.length_take]
    omega
  apply List.ext_getElem?
  intro i
  simp only [slice, List.getElem?_take, List.getElem?_drop]
  by_cases hi : i < n
  · rw [if_pos hi, if_pos hi]
    simp only [patchAt, List.getElem?_append, List.length_append, hto]
    rw [if_pos (show o2 + i < o1 + bs.length by omega),
      if_pos (show o2 + i < o1 by omega),
      List.getElem?_take, if_pos (show o2 + i < o1 by omega)]
  · rw [if_neg hi, if_neg hi]

theorem applyPatches_length (L : List (Nat × List SByte)) :
    ∀ out : List SByte, (∀ pr ∈ L, pr.1 + pr.2.length ≤ out.length) →
      (applyPatches out L).length = out.length := by
  induction L with
  | nil => exact fun out _ => rfl
  | cons pr L ih =>
    intro out h
    have h0 := h pr (List.mem_cons_self pr L)
    have hlen := length_patchAt out pr.2 pr.1 h0
    show (applyPatches (patchAt out pr.1 pr.2) L).length = out.length
    rw [ih _ (fun q hq => by rw [hlen]; exact h q (List.mem_cons_of_mem _ hq))]
    exact hlen

theorem slice_applyPatches_before (L : List (Nat × List SByte)) (ofs n : Nat) :
    ∀ out : List SByte,
      (∀ pr ∈ L, ofs + n ≤ pr.1 ∧ pr.1 + pr.2.length ≤ out.length) →
      slice (applyPatches out L) ofs n = slice out ofs n := by
  induction L with
  | nil => exact fun out _ => rfl
  | cons pr L ih =>
    intro out h
    have h0 := h pr (List.mem_cons_self pr L)
    have hlen := length_patchAt out pr.2 pr.1 h0.2
    show slice (applyPatches (patchAt out pr.1 pr.2) L) ofs n = slice out ofs n
    rw [ih _ (fun q hq => by rw [hlen]; exact h q (List.mem_cons_of_mem _ hq))]
    exact slice_patchAt_before out pr.2 pr.1 ofs n h0.1 h0.2

theorem write_metadata_decomp (out : List SByte) (mm : FLVmetadata) (t : Nat) :
    (write_metadata out mm t).1 =
      applyPatches (patchAt out mm.ofs_duration (putDoubleS ((t : Rat) / 1000)))
        [(mm.ofs_width, putDoubleS mm.width), (mm.ofs_height, putDoubleS mm.height),
         (mm.ofs_framerate, putDoubleS mm.framerate),
         (mm.ofs_videocodecid, putDoubleS mm.videocodecid),
         (mm.ofs_audiosamplerate, putDoubleS mm.audiosamplerate),
         (mm.ofs_audiosamplesize, putDoubleS mm.audiosamplesize),
         (mm.ofs_stereo, putBooleanS (mm.stereo % 256).toNat),
         (mm.ofs_audiocodecid, putDoubleS mm.audiocodecid),
         (mm.ofs_filesize, putDoubleS ((out.length : Rat)))] := rfl

theorem write_metadata_decomp2 (out : List SByte) (mm : FLVmetadata) (t : Nat) :
    (write_metadata out mm t).1 =
      patchAt (applyPatches out
        [(mm.ofs_duration, putDoubleS ((t : Rat) / 1000)),
         (mm.ofs_width, putDoubleS mm.width), (mm.ofs_height, putDoubleS mm.height),
         (mm.ofs_framerate, putDoubleS mm.framerate),
         (mm.ofs_videocodecid, putDoubleS mm.videocodecid),
         (mm.ofs_audiosamplerate, putDoubleS mm.audiosamplerate),
         (mm.ofs_audiosamplesize, putDoubleS mm.audiosamplesize),
         (mm.ofs_stereo, putBooleanS (mm.stereo % 256).toNat),
         (mm.ofs_audiocodecid, putDoubleS mm.audiocodecid)])
        mm.ofs_filesize (putDoubleS ((out.length : Rat))) := rfl

theorem length_flvHeaderBytes : flvHeaderBytes.length = 13 := rfl

theorem length_tagBytes (p : FLVpacket) : (tagBytes p).length = 15 + p.data.length := by
  simp only [tagBytes, format_ui24, format_ui32, List.length_append, List.length_map,
    List.length_take, List.length_cons, List.length_nil]
  omega

set_option maxRecDepth 10000 in
theorem generate_metadata_ofs (m : FLVmetadata) :
    (generate_metadata 24 m).2 =
      { m with
        ofs_duration := 52
        ofs_width := 68
        ofs_height := 85
        ofs_framerate := 105
        ofs_videocodecid := 128
        ofs_audiosamplerate := 154
        ofs_audiosamplesize := 180
        ofs_stereo := 197
        ofs_audiocodecid := 213
        ofs_filesize := 232 } := rfl

set_option maxRecDepth 10000 in
theorem generate_metadata_data_length (m : FLVmetadata) :
    (generate_metadata 24 m).1.length = 253 := rfl

set_option maxRecDepth 10000 in
set_option maxHeartbeats 4000000 in
/-- C10: at finalization the duration is `lastVideoTimestamp +
frameInterval` when `lastVideoTimestamp >= lastAudioTimestamp` and
otherwise `lastAudioTimestamp + round(1000*lastPacketSize*8 /
audioBitrate)`; the metadata record's filesize is the total output byte
length; and the duration (as seconds, `duration/1000`, the on-disk
encoding) and the filesize are patched in place -- output length
unchanged -- at exactly the offsets recorded when the placeholder
metadata packet was generated. -/
theorem metadata_finalization (extra : List SByte) (m : FLVmetadata)
    (lv : Nat) (la : Int) (lsize abitrate fi : Nat)
    (hv : lv + fi < pow32)
    (haud : la + (audioTailMs lsize abitrate : Int) < (pow32 : Int))
    (htail : audioTailMs lsize abitrate < pow32) :
    let g := generate_metadata 24 m
    let pre := flvHeaderBytes ++ tagBytes ⟨18, g.1.length, 0, 0, g.1, g.1.length + 11⟩
    let out := pre ++ extra
    let dur := finalDurationMs lv la lsize abitrate fi
    let r := write_metadata out g.2 dur
    ((dur : Int) = if la ≤ (lv : Int) then (lv : Int) + (fi : Int)
      else la + (audioTailMs lsize abitrate : Int)) ∧
    slice r.1 g.2.ofs_duration 9 = putDoubleS ((dur : Rat) / 1000) ∧
    slice r.1 g.2.ofs_filesize 9 = putDoubleS ((out.length : Rat)) ∧
    r.2.filesize = (out.length : Rat) ∧
    r.1.length = out.length := by
  intro g pre out dur r
  have hpre : pre.length = 281 := by
    show (flvHeaderBytes ++ tagBytes ⟨18, g.1.length, 0, 0, g.1, g.1.length + 11⟩).length = 281
    rw [List.length_append, length_flvHeaderBytes, length_tagBytes]
    show 13 + (15 + (generate_metadata 24 m).1.length) = 281
    rw [generate_metadata_data_length]
  have hout : out.length = 281 + extra.length := by
    show (pre ++ extra).length = _
    rw [List.length_append, hpre]
  have hrec := generate_metadata_ofs m
  have hdec : r.1 = applyPatches
      (patchAt out 52 (putDoubleS ((dur : Rat) / 1000)))
      [(68, putDoubleS m.width), (85, putDoubleS m.height), (105, putDoubleS m.framerate),
       (128, putDoubleS m.videocodecid), (154, putDoubleS m.audiosamplerate),
       (180, putDoubleS m.audiosamplesize), (197, putBooleanS (m.stereo % 256).toNat),
       (213, putDoubleS m.audiocodecid), (232, putDoubleS ((out.length : Rat)))] := by
    show (write_metadata out g.2 dur).1 = _
    rw [write_metadata_decomp, hrec]
  have hdec2 : r.1 = patchAt
      (applyPatches out
        [(52, putDoubleS ((dur : Rat) / 1000)), (68, putDoubleS m.width),
         (85, putDoubleS m.height), (105, putDoubleS m.framerate),
         (128, putDoubleS m.videocodecid), (154, putDoubleS m.audiosamplerate),
         (180, putDoubleS m.audiosamplesize), (197, putBooleanS (m.stereo % 256).toNat),
         (213, putDoubleS m.audiocodecid)])
      232 (putDoubleS ((out.length : Rat))) := by
    show (write_metadata out g.2 dur).1 = _
    rw [write_metadata_decomp2, hrec]
  have hlen9 : (applyPatches out
      [(52, putDoubleS ((dur : Rat) / 1000)), (68, putDoubleS m.width),
       (85, putDoubleS m.height), (105, putDoubleS m.framerate),
       (128, putDoubleS m.videocodecid), (154, putDoubleS m.audiosamplerate),
       (180, putDoubleS m.audiosamplesize), (197, putBooleanS (m.stereo % 256).toNat),
       (213, putDoubleS m.audiocodecid)]).length = out.length := by
    apply applyPatches_length
    intro pr hpr
    simp only [List.mem_cons, List.not_mem_nil, or_false] at hpr
    rcases hpr with rfl | rfl | rfl | rfl | rfl | rfl | rfl | rfl | rfl <;>
      simp only [length_putDoubleS, length_putBooleanS] <;> omega
  refine ⟨?_, ?_, ?_, rfl, ?_⟩
  · -- the duration formula of main()
    show ((finalDurationMs lv la lsize abitrate fi : Nat) : Int) = _
    unfold finalDurationMs
    by_cases hc : la ≤ (lv : Int)
    · rw [if_pos hc, if_pos hc]
      exact wrap32_eq ((lv : Int) + (fi : Int)) (by omega)
        (by unfold pow32 at hv ⊢; omega)
    · rw [if_neg hc, if_neg hc, Nat.mod_eq_of_lt htail]
      exact wrap32_eq (la + (audioTailMs lsize abitrate : Int)) (by omega)
        (by unfold pow32 at haud ⊢; omega)
  · -- the duration placeholder is overwritten in place at its offset
    have hofs : g.2.ofs_duration = 52 := by rw [hrec]
    rw [hofs, hdec, slice_applyPatches_before]
    · exact slice_patchAt_self out _ 52 (by simp only [length_putDoubleS]; omega)
    · intro pr hpr
      rw [length_patchAt _ _ _ (by simp only [length_putDoubleS]; omega)]
      simp only [List.mem_cons, List.not_mem_nil, or_false] at hpr
      rcases hpr with rfl | rfl | rfl | rfl | rfl | rfl | rfl | rfl | rfl <;>
        simp only [length_putDoubleS, length_putBooleanS] <;> omega
  · -- the filesize placeholder is overwritten in place at its offset
    have hofs : g.2.ofs_filesize = 232 := by rw [hrec]
    rw [hofs, hdec2]
    exact slice_patchAt_self _ _ 232 (by simp only [length_putDoubleS, hlen9]; omega)
  · -- patching never changes the output length
    rw [hdec2, length_patchAt _ _ _ (by simp only [length_putDoubleS, hlen9]; omega)]
    exact hlen9

/-- Witness for C10: the video branch (no audio seen, `lastAudio = -1`)
with `lastVideo = 1000` and `frameInterval = 100` gives duration 1100 ms,
patched as 1.1 s at offset 52; the filesize patched at offset 232 is the
output length. -/
theorem metadata_finalization_witness :
    ((finalDurationMs 1000 (-1) 0 32000 100 : Nat) : Int) =
      (if (-1 : Int) ≤ ((1000 : Nat) : Int) then ((1000 : Nat) : Int) + ((100 : Nat) : Int)
       else (-1 : Int) + (audioTailMs 0 32000 : Int)) ∧
    slice (write_metadata
        ((flvHeaderBytes ++ tagBytes ⟨18, (generate_metadata 24 ({} : FLVmetadata)).1.length, 0,
            0, (generate_metadata 24 ({} : FLVmetadata)).1,
            (generate_metadata 24 ({} : FLVmetadata)).1.length + 11⟩) ++ [SByte.raw 7])
        (generate_metadata 24 ({} : FLVmetadata)).2 (finalDurationMs 1000 (-1) 0 32000 100)).1
      (generate_metadata 24 ({} : FLVmetadata)).2.ofs_duration 9 =
      putDoubleS (((finalDurationMs 1000 (-1) 0 32000 100 : Nat) : Rat) / 1000) :=
  ⟨(metadata_finalization [SByte.raw 7] {} 1000 (-1) 0 32000 100
      (by decide) (by decide) (by decide)).1,
   (metadata_finalization [SByte.raw 7] {} 1000 (-1) 0 32000 100
      (by decide) (by decide) (by decide)).2.1⟩

theorem audioTimestamps_concat (out : List FLVpacket) (p : FLVpacket) :
    audioTimestamps (out ++ [p]) =
      audioTimestamps out ++ (if p.type = 8 then [p.timestamp] else []) := by
  by_cases h : p.type = 8 <;> simp [audioTimestamps, h]

theorem write_packet_AudioInv (s : JoinState) (p : FLVpacket) (fst : Int)
    (h : AudioInv s) : AudioInv (write_packet s p fst) := by
  obtain ⟨hc, hl⟩ := h
  by_cases hd : p.type = 8 ∧ ((wrap32 ((p.timestamp : Int) + fst)) : Int) ≤ s.last_audio_timestamp
  · simp only [write_packet]
    rw [if_pos hd]
    exact ⟨hc, hl⟩
  · simp only [write_packet]
    rw [if_neg hd]
    by_cases h8 : p.type = 8
    · -- an audio packet is emitted: its timestamp exceeds every earlier one
      have hts : s.last_audio_timestamp < ((wrap32 ((p.timestamp : Int) + fst)) : Int) := by
        by_contra hh
        exact hd ⟨h8, le_of_not_lt hh⟩
      constructor
      · rw [audioTimestamps_concat, if_pos h8]
        rw [List.chain'_append]
        refine ⟨hc, List.chain'_singleton _, ?_⟩
        intro x hx y hy
        simp only [List.head?_cons, Option.mem_def, Option.some.injEq] at hy
        subst hy
        have hxa : (x : Int) ≤ s.last_audio_timestamp := hl x hx
        have : (x : Int) < (wrap32 ((p.timestamp : Int) + fst) : Int) := lt_of_le_of_lt hxa hts
        exact_mod_cast this
      · rw [audioTimestamps_concat, if_pos h8]
        intro a ha
        rw [List.getLast?_concat] at ha
        simp only [Option.mem_def, Option.some.injEq] at ha
        subst ha
        simp [h8]
    · -- no audio output is added and the audio counter stays put
      constructor
      · rw [audioTimestamps_concat, if_neg h8]
        simpa using hc
      · rw [audioTimestamps_concat, if_neg h8]
        intro a ha
        simp only [List.append_nil] at ha
        have := hl a ha
        simp only [if_neg h8]
        exact this

theorem flushOne_AudioInv (fst : Int) (s : JoinState) (q : FLVpacket) (h : AudioInv s) :
    AudioInv (flushOne fst s q) := by
  unfold flushOne
  cases hs : s.seq_header with
  | none => exact write_packet_AudioInv _ _ _ h
  | some sh =>
    dsimp only
    by_cases hv : q.type = 9
    · rw [if_pos hv]
      exact write_packet_AudioInv _ _ _ (write_packet_AudioInv _ _ _ h)
    · rw [if_neg hv]
      exact write_packet_AudioInv _ _ _ h

theorem foldl_flushOne_AudioInv (fst : Int) (l : List FLVpacket) :
    ∀ s : JoinState, AudioInv s → AudioInv (l.foldl (flushOne fst) s) := by
  induction l with
  | nil => exact fun s h => h
  | cons q l ih =>
    intro s h
    exact ih _ (flushOne_AudioInv fst s q h)

theorem buffer_packet_AudioInv (s : JoinState) (p : FLVpacket) (fst : Int) (flush : Bool)
    (h : AudioInv s) : AudioInv (buffer_packet s p fst flush) := by
  unfold buffer_packet
  cases flush with
  | false => exact h
  | true => exact foldl_flushOne_AudioInv fst _ _ h

theorem processPacket_AudioInv (cfg : Config) (st : FileState × JoinState) (p : FLVpacket)
    (h : AudioInv st.2) : AudioInv (processPacket cfg st p).2 := by
  simp only [processPacket]
  repeat' split
  all_goals first
    | exact h
    | exact buffer_packet_AudioInv _ p _ _ h
    | exact write_packet_AudioInv _ _ _ h

theorem foldl_processPacket_AudioInv (cfg : Config) (ps : List FLVpacket) :
    ∀ st : FileState × JoinState, AudioInv st.2 →
      AudioInv ((ps.foldl (processPacket cfg) st)).2 := by
  induction ps with
  | nil => exact fun st h => h
  | cons p ps ih =>
    intro st h
    exact ih _ (processPacket_AudioInv cfg st p h)

theorem runJoin_AudioInv (cfg : Config) (files : List InputFile) :
    AudioInv (runJoin cfg files) := by
  have hinit : AudioInv initJoinState := by
    constructor <;> simp [initJoinState, audioTimestamps]
  unfold runJoin
  induction files generalizing cfg with
  | nil => exact hinit
  | cons f files ih =>
    rw [List.foldl_cons]
    have h1 : AudioInv (appendFilePackets cfg initJoinState f.mark_in f.mark_out f.packets).2 :=
      foldl_processPacket_AudioInv cfg f.packets _ hinit
    clear ih
    -- fold the remaining files from an arbitrary invariant-satisfying state
    suffices hgen : ∀ (fs : List InputFile) (s : JoinState), AudioInv s →
        AudioInv (fs.foldl
          (fun s f => (appendFilePackets cfg s f.mark_in f.mark_out f.packets).2) s) by
      exact hgen files _ h1
    intro fs
    induction fs with
    | nil => exact fun s h => h
    | cons g gs ihg =>
      intro s h
      exact ihg _ (foldl_processPacket_AudioInv cfg g.packets _ h)

/-- C2: across the whole joined output, emitted audio timestamps
strictly increase, and an audio packet whose offset-adjusted timestamp
is at most `last_audio_timestamp` (initially −1, below any real
timestamp) is dropped: `write_packet` leaves the state untouched. -/
theorem audio_timestamps_strictly_increase :
    (∀ cfg files, List.Chain' (· < ·) (audioTimestamps (runJoin cfg files).output)) ∧
    (∀ s p fst, p.type = 8 →
      ((wrap32 ((p.timestamp : Int) + fst)) : Int) ≤ s.last_audio_timestamp →
      write_packet s p fst = s) := by
  constructor
  · intro cfg files
    exact (runJoin_AudioInv cfg files).1
  · intro s p fst h8 hle
    simp only [write_packet]
    rw [if_pos ⟨h8, hle⟩]

/-- Witness for C2: a run whose audio output is strictly increasing,
and a concrete overlapping audio packet (adjusted timestamp 3 against a
last audio timestamp of 5) that is dropped without any state change. -/
theorem audio_timestamps_strictly_increase_witness :
    List.Chain' (· < ·)
      (audioTimestamps (runJoin cfg0 [⟨0, 99999000, [audioP 500]⟩,
        ⟨0, 99999000, [videoKeyP 200]⟩]).output) ∧
    write_packet { initJoinState with last_audio_timestamp := 5 } (audioP 3) 0 =
      { initJoinState with last_audio_timestamp := 5 } :=
  ⟨audio_timestamps_strictly_increase.1 cfg0 _,
   audio_timestamps_strictly_increase.2 _ (audioP 3) 0 rfl (by decide)⟩

end Flvjoin
